import Mathlib

/-!
Verification of the album-tree builder and export reconciler of the
osx-photos-export program.

The development shallowly embeds the two core components:

* `ApePhotos` (file ape_photos.py): `_create_photo_record`, `_parse_tree`
  and `fetch_albums`, which turn flat relational rows (albums, photo-album
  links, keywords) into an ordered, pruned tree of album nodes.  Database
  access itself is an external collaborator: the row-sets returned by the
  fixed SQL queries are the inputs of the embedded functions, and the
  sequential query-shape probing loop is embedded over a list of
  per-query outcomes.
* `ApeExporter` (file ape_exporter.py): the constructor checks, the
  per-node photo placement phase of `_export_internal`, the scripted
  export batching of `_export_media`, and the metadata patching of
  `_run_update_exif`.  Filesystem and external-tool effects are embedded
  as an event trace plus oracles for file existence and for the
  metadata-tool status string.

Machine integers of the source are modelled as `Int`; SQL numeric values
(GPS coordinates) as `ℚ`; nullable columns as `Option`.
-/

namespace ApePhotos

/-- One row of the album query
`SELECT Z_PK, ZPARENTFOLDER, ZUUID, ZTITLE, ZKIND FROM ZGENERICALBUM WHERE
ZTITLE IS NOT NULL AND ZDUPLICATETYPE IS NULL AND ZTRASHEDSTATE = 0`
(ape_photos.py line 260).  `ZPARENTFOLDER` is nullable. -/
structure AlbumRow where
  id : Int
  parentId : Option Int
  uuid : String
  name : String
  kind : Int
deriving DecidableEq, Repr

/-- One row of the photo query of `QUERY_VERSIONS` (ape_photos.py lines
63-152).  Columns in order: album id, photo primary key, directory,
filename, uuid, original filename, `ZHASADJUSTMENTS`,
`ZVIDEOCPDISPLAYVALUE`, latitude, longitude, favourite, and the
`group_concat` keyword-id list (modelled as the parsed list of ids; the
source receives it as a comma-separated string and splits it back). -/
structure PhotoRow where
  albumId : Int
  id : Int
  directory : String
  filename : String
  uuid : String
  originalFilename : String
  hasAdjustments : Option Int
  videoCpDisplayValue : Int
  latitude : Option ℚ
  longitude : Option ℚ
  favourite : Option Int
  keywordIds : Option (List Int)
deriving DecidableEq, Repr

/-- One row of `SELECT Z_PK, ZTITLE FROM ZKEYWORD` (ape_photos.py
line 265). -/
structure KeywordRow where
  id : Int
  title : Option String
deriving DecidableEq, Repr

/-- The photo record dictionary made by `ApePhotos._create_photo_record`
(ape_photos.py lines 162-184). -/
structure PhotoRecord where
  id : Int
  uuid : String
  directory : String
  filename : String
  originalFilename : String
  adjusted : Bool
  live : Bool
  latitude : Option ℚ
  longitude : Option ℚ
  favourite : Option Int
  keywords : List String
  hasExifData : Bool
deriving DecidableEq, Repr

/-- Lookup in the dictionary `{i:j for i,j in keywords_temp}`
(ape_photos.py line 188): a later binding of the same key overwrites an
earlier one, hence the lookup scans the reversed list. -/
def dictGet (keywordsMap : List KeywordRow) (i : Int) : Option String :=
  match keywordsMap.reverse.find? (fun k => k.id = i) with
  | some k => k.title
  | none => none

/-- The GPS validity test of ape_photos.py line 165:
`isinstance(latitude, (int, float,)) and isinstance(longitude, (int, float,))
and (-90 <= latitude <= 90) and (-180 <= longitude <= 80)`.
Note the asymmetric longitude upper bound 80 taken verbatim from the
source. -/
def gpsValid (latitude longitude : Option ℚ) : Bool :=
  match latitude, longitude with
  | some la, some lo =>
      decide (-90 ≤ la) && decide (la ≤ 90) && decide (-180 ≤ lo) && decide (lo ≤ 80)
  | _, _ => false

/-- Embedding of `ApePhotos._create_photo_record` (ape_photos.py lines 162-184).
When the GPS pair is invalid both coordinates are nulled.  The keyword-id
list is looked up in the keyword map; missing ids and falsy titles
(null or empty string) are dropped, exactly as the comprehension
`[kw for kw in [keywords_map.get(int(i), None) for i in ...] if kw]`
does. -/
def createPhotoRecord (keywordsMap : List KeywordRow) (photo : PhotoRow) : PhotoRecord :=
  let valid := gpsValid photo.latitude photo.longitude
  let keywordsList : List String := (photo.keywordIds.getD []).filterMap (fun i =>
    match dictGet keywordsMap i with
    | some kw => if kw = "" then none else some kw
    | none => none)
  { id := photo.id
    uuid := photo.uuid
    directory := photo.directory
    filename := photo.filename
    originalFilename := photo.originalFilename
    adjusted := photo.hasAdjustments.getD 0 != 0
    live := decide (0 < photo.videoCpDisplayValue)
    latitude := if valid then photo.latitude else none
    longitude := if valid then photo.longitude else none
    favourite := photo.favourite
    keywords := keywordsList
    hasExifData := keywordsList.any (fun kw => kw ≠ "") || valid }

/-- A node of the album tree built by `_parse_tree` / `fetch_albums`.
The source uses Python dictionaries in which the `photos` and `children`
keys may be absent; absence is modelled by `none`. -/
inductive AlbumNode : Type where
  | mk (id : Option Int) (uuid : Option String) (name : String)
      (photos : Option (List PhotoRecord)) (children : Option (List AlbumNode)) : AlbumNode

/-- The album id of a node. -/
def AlbumNode.id : AlbumNode → Option Int
  | .mk i _ _ _ _ => i

/-- The uuid of a node. -/
def AlbumNode.uuid : AlbumNode → Option String
  | .mk _ u _ _ _ => u

/-- The display name of a node. -/
def AlbumNode.name : AlbumNode → String
  | .mk _ _ n _ _ => n

/-- The `photos` entry of a node, `none` when the key is absent. -/
def AlbumNode.photos : AlbumNode → Option (List PhotoRecord)
  | .mk _ _ _ p _ => p

/-- The `children` entry of a node, `none` when the key is absent. -/
def AlbumNode.children : AlbumNode → Option (List AlbumNode)
  | .mk _ _ _ _ c => c

/-- The photo list of a node, empty when the `photos` key is absent. -/
def AlbumNode.photosL (n : AlbumNode) : List PhotoRecord :=
  n.photos.getD []

/-- The child list of a node, empty when the `children` key is absent. -/
def AlbumNode.childrenL (n : AlbumNode) : List AlbumNode :=
  n.children.getD []

/-- The comparison used by the sorting at ape_photos.py line 221, which
sorts the sibling list keyed on the child name: ascending under the
code-point lexicographic string order. -/
def childLe (a b : AlbumNode) : Bool := decide (a.name ≤ b.name)

/-- Embedding of `ApePhotos._parse_tree` (ape_photos.py lines 187-221).  The source
recursion is bounded only by the data (it diverges on a cyclic parent
relation); the embedding adds an explicit recursion-depth fuel and
returns the empty forest when the fuel is exhausted.  Every property
proved below holds for every fuel value. -/
def parseTree : Nat → Int → List AlbumRow → List PhotoRow → List KeywordRow → List AlbumNode
  | 0, _, _, _, _ => []
  | fuel + 1, parentId, albumTemp, photoTemp, keywordsTemp =>
    let items := albumTemp.filterMap (fun a =>
      if a.parentId = some parentId then
        let photos := (photoTemp.filter (fun p => p.albumId = a.id)).map
          (fun p => createPhotoRecord keywordsTemp p)
        let children := parseTree fuel a.id albumTemp photoTemp keywordsTemp
        if !photos.isEmpty || !children.isEmpty then
          some (AlbumNode.mk (some a.id) (some a.uuid) a.name
            (if photos.isEmpty then none else some photos)
            (if children.isEmpty then none else some children))
        else none
      else none)
    items.mergeSort childLe

/-- The shared-album children collected by the loop at ape_photos.py
lines 298-306: every album row of kind 1505 becomes one flat node whose
photos are built with the default empty keyword map
(`self._create_photo_record(p)` passes no map). -/
def sharedAlbumsOf (albumTemp : List AlbumRow) (photoTemp : List PhotoRow) : List AlbumNode :=
  (albumTemp.filter (fun a => a.kind = 1505)).map (fun a =>
    AlbumNode.mk (some a.id) (some a.uuid) a.name
      (some ((photoTemp.filter (fun p => p.albumId = a.id)).map
        (fun p => createPhotoRecord [] p)))
      none)

/-- The tree-assembly part of `ApePhotos.fetch_albums` (ape_photos.py
lines 286-308): parse the primary tree below the root id, then append the
synthetic node named Shared whose `children` list is filled with the
kind-1505 albums (`x.append(...)` happens unconditionally, before the
shared-album loop runs; the loop mutates the very list stored in the
node).  The fuel `albumTemp.length + 1` makes the embedded recursion
agree with the source on every acyclic parent relation. -/
def fetchAlbums (rootId : Int) (albumTemp : List AlbumRow) (keywordsTemp : List KeywordRow)
    (photoTemp : List PhotoRow) : List AlbumNode :=
  parseTree (albumTemp.length + 1) rootId albumTemp photoTemp keywordsTemp
    ++ [AlbumNode.mk none none "Shared" none (some (sharedAlbumsOf albumTemp photoTemp))]

/-- Outcome of the photo-query probing loop of `fetch_albums`. -/
inductive FetchOutcome (E R : Type) : Type where
  | ok (rows : R)
  | raised (e : E)
  | unbound
deriving DecidableEq, Repr

/-- The loop at ape_photos.py lines 275-281 over the query shapes of
`QUERY_VERSIONS`: each query either yields rows (`Except.ok`) or fails
with an operational error (`Except.error`).  The loop body stores every
error in the variable `error` and breaks on the first success; the
accumulator is that variable.  It returns the final value of `error`
together with the rows of the first successful query, if any. -/
def probeLoop {E R : Type} : List (Except E R) → Option E → Option E × Option R
  | [], err => (err, none)
  | Except.ok rows :: _, err => (err, some rows)
  | Except.error e :: rest, _ => probeLoop rest (some e)

/-- The photo-row fetch of `fetch_albums` (ape_photos.py lines 274-283):
run the probing loop with `error = None`, then
`if error is not None: raise error`; when no query ran at all the later
use of `photo_temp` would be an unbound-name error. -/
def fetchPhotoTemp {E R : Type} (results : List (Except E R)) : FetchOutcome E R :=
  match probeLoop results none with
  | (some e, _) => FetchOutcome.raised e
  | (none, some rows) => FetchOutcome.ok rows
  | (none, none) => FetchOutcome.unbound

end ApePhotos

namespace ApeExporter

open ApePhotos

/-- Embedding of `os.path.join` for the non-empty relative segments the exporter
builds paths from. -/
def pathJoin (a b : String) : String := a ++ "/" ++ b

/-- Python `str.lower` / the `re.IGNORECASE` case folding, character by
character. -/
def pyLower (s : String) : String := String.mk (s.data.map Char.toLower)

/-- The test `re_movies.match(filename)` of ape_exporter.py line 151, where
`re_movies` is compiled at line 35 from the pattern `\.(mov|mp4)$` with
the IGNORECASE flag.
Python `re.match` anchors at the start of the string, so the pattern
matches exactly the strings that consist of nothing but the extension
(the `$` anchor also accepts one trailing newline). -/
def reMoviesMatch (s : String) : Bool :=
  let t := pyLower s
  t = ".mov" || t = ".mp4" || t = ".mov\n" || t = ".mp4\n"

/-- Embedding of the substitution performed with `re_jpeg`, compiled at
ape_exporter.py line 34 from the pattern `\.jpg$` with the IGNORECASE
flag and applied at line 199: replace a case-insensitive `.jpg` suffix
by `.jpeg`. -/
def reJpegSub (s : String) : String :=
  let cs := s.data
  if pyLower (String.mk (cs.drop (cs.length - 4))) = ".jpg" ∧ 4 ≤ cs.length then
    String.mk (cs.take (cs.length - 4)) ++ ".jpeg"
  else s

/-- Embedding of `ApeExporter._validate_filename` (ape_exporter.py lines 194-199);
`isFile` is the `os.path.isfile` oracle. -/
def validateFilename (isFile : String → Bool) (expected : String) : String :=
  if isFile expected then expected else reJpegSub expected

/-- One argument passed to the exiftool `execute` call in
`_run_update_exif` (ape_exporter.py lines 164-175), kept structured
instead of string-formatted. -/
inductive ExifFlag : Type where
  | gpsLat (v : ℚ)
  | gpsLatRef (r : Char)
  | gpsLong (v : ℚ)
  | gpsLongRef (r : Char)
  | subject (s : String)
  | overwriteInPlace
  | preserveDate
  | target (filename : String)
deriving DecidableEq, Repr

/-- One element of the `data_list` argument of `_run_update_exif`
(ape_exporter.py lines 110-115, 205-210, 219-224, 230-235). -/
structure ExifData where
  latitude : Option ℚ
  longitude : Option ℚ
  keywords : List String
  filename : String
deriving DecidableEq, Repr

/-- The ExifData record built from a photo record for a given staged
filename. -/
def exifDataOf (filename : String) (p : PhotoRecord) : ExifData :=
  { latitude := p.latitude, longitude := p.longitude,
    keywords := p.keywords, filename := filename }

/-- The flag list built by `_run_update_exif` for one record
(ape_exporter.py lines 154-172): GPS flags only when both coordinates
are non-null (hemisphere letter from the sign, coordinate by absolute
value), then one Subject flag per keyword. -/
def exifFlags (d : ExifData) : List ExifFlag :=
  let gpsFlags : List ExifFlag :=
    match d.latitude, d.longitude with
    | some la, some lo =>
        let latRef := if 0 < la then 'N' else 'S'
        let longRef := if 0 < lo then 'E' else 'W'
        [ExifFlag.gpsLat (abs la), ExifFlag.gpsLatRef latRef,
         ExifFlag.gpsLong (abs lo), ExifFlag.gpsLongRef longRef]
    | _, _ => []
  gpsFlags ++ d.keywords.map ExifFlag.subject

/-- Substring containment over character lists, the semantics of the
Python `in` operator on strings. -/
def charsContain (needle : List Char) : List Char → Bool
  | [] => needle.isEmpty
  | c :: rest => needle.isPrefixOf (c :: rest) || charsContain needle rest

/-- Test `needle in hay` for Python strings. -/
def strContains (hay needle : String) : Bool := charsContain needle.toList hay.toList

/-- First success substring recognised at ape_exporter.py line 179. -/
def updatedMsg : String := "1 image files updated"

/-- Second success substring recognised at ape_exporter.py line 179. -/
def unchangedMsg : String := "1 image files unchanged"

/-- Per-file outcome of the `_run_update_exif` loop body
(ape_exporter.py lines 149-184). -/
inductive ExifOutcome : Type where
  | skippedMovie
  | noFlags
  | patched (r : String)
  | softError (r : String)
  | jsonIgnored
deriving DecidableEq, Repr

/-- Loop body of `_run_update_exif` for one data record.  `tool` is the
`exif_tool.execute` oracle, returning either the status string or a JSON
decode failure.  A status string containing neither success substring
raises `ValueError`, which the handler turns into a logged soft error
(`softError`); the file is left unpatched and the loop continues. -/
def processExifData (tool : List ExifFlag → Except Unit String) (d : ExifData) : ExifOutcome :=
  if reMoviesMatch d.filename then ExifOutcome.skippedMovie
  else
    let flags := exifFlags d
    if flags.isEmpty then ExifOutcome.noFlags
    else
      match tool (flags ++ [ExifFlag.overwriteInPlace, ExifFlag.preserveDate,
          ExifFlag.target d.filename]) with
      | Except.error _ => ExifOutcome.jsonIgnored
      | Except.ok r =>
          if !strContains r updatedMsg && !strContains r unchangedMsg then
            ExifOutcome.softError r
          else ExifOutcome.patched r

/-- Embedding of `ApeExporter._run_update_exif` (ape_exporter.py lines 145-184): an
early return when EXIF updating is off, otherwise every record of the
list is processed in order and yields one outcome. -/
def runUpdateExif (updateExif : Bool) (tool : List ExifFlag → Except Unit String)
    (dataList : List ExifData) : List (String × ExifOutcome) :=
  if !updateExif then []
  else dataList.map (fun d => (d.filename, processExifData tool d))

/-- The constructor state of `ApeExporter` that the per-node export
functions read (ape_exporter.py lines 42-45). -/
structure Config : Type where
  photosLibraryPath : String
  tempDirectory : String
  originalsSubdirName : String
  updateExif : Bool

/-- Observable action of the export run, in program order. -/
inductive ExportEvent : Type where
  | makeDirs (path : String)
  | directCopy (photo : PhotoRecord) (src dst : String)
  | exifBatch (dataList : List ExifData)
  | moveFile (src dst : String)
  | scriptedExport (photos : List PhotoRecord) (usingOriginals : Bool) (dest : String)
  | moveTempTo (dest : String)
deriving DecidableEq, Repr

/-- The direct-access loop of `_export_internal` (ape_exporter.py lines
79-117).  Returns the emitted events and the `failed_direct_access`
list.  A live photo is enqueued as failed without any copy attempt; a
non-live photo is copied from the library storage (to the temp file when
an EXIF update is requested, else to the target), a missing source file
(`isFile` oracle false) turns into a failed enqueue, and a successful
copy with requested EXIF update patches the temp file and moves it to
the target. -/
def directAccessLoop (cfg : Config) (isFile : String → Bool) (targetPath : String) :
    List PhotoRecord → List ExportEvent × List PhotoRecord
  | [] => ([], [])
  | photo :: rest =>
    let r := directAccessLoop cfg isFile targetPath rest
    if photo.live then (r.1, photo :: r.2)
    else
      let sourceFilename := pathJoin (pathJoin (pathJoin cfg.photosLibraryPath "originals")
        photo.directory) photo.filename
      let tempFilename := pathJoin cfg.tempDirectory photo.originalFilename
      let targetFilename :=
        if photo.adjusted then
          pathJoin (pathJoin targetPath cfg.originalsSubdirName) photo.originalFilename
        else pathJoin targetPath photo.originalFilename
      let requestExifUpdate := cfg.updateExif && photo.hasExifData
      let toFilename := if requestExifUpdate then tempFilename else targetFilename
      let copyEvent := ExportEvent.directCopy photo sourceFilename toFilename
      if !isFile sourceFilename then (copyEvent :: r.1, photo :: r.2)
      else if requestExifUpdate then
        (copyEvent :: ExportEvent.exifBatch [exifDataOf tempFilename photo] ::
          ExportEvent.moveFile tempFilename targetFilename :: r.1, r.2)
      else (copyEvent :: r.1, r.2)

/-- Embedding of `ApeExporter._export_media` (ape_exporter.py lines 201-236) as an
event trace: the current-version bucket is exported without the
`with using originals` option and moved to the node directory, then the
adjusted members of `export_originals` are exported using originals and
moved to the Originals subdirectory, then the unadjusted members are
exported using originals and moved to the node directory.  Empty buckets
trigger nothing. -/
def exportMediaEvents (cfg : Config) (isFile : String → Bool) (exportCurrent : List PhotoRecord)
    (targetPath : String) (exportOriginals : List PhotoRecord) : List ExportEvent :=
  (if !exportCurrent.isEmpty then
    [ExportEvent.scriptedExport exportCurrent false cfg.tempDirectory,
     ExportEvent.exifBatch ((exportCurrent.filter (fun p => p.hasExifData)).map (fun p =>
       exifDataOf (validateFilename isFile (pathJoin cfg.tempDirectory p.originalFilename)) p)),
     ExportEvent.moveTempTo targetPath]
   else [])
  ++ (if !exportOriginals.isEmpty then
      (let adjustedList := exportOriginals.filter (fun p => p.adjusted)
       if !adjustedList.isEmpty then
        [ExportEvent.scriptedExport adjustedList true cfg.tempDirectory,
         ExportEvent.exifBatch ((adjustedList.filter (fun p => p.hasExifData)).map (fun p =>
           exifDataOf (validateFilename isFile (pathJoin cfg.tempDirectory p.originalFilename)) p)),
         ExportEvent.moveTempTo (pathJoin targetPath cfg.originalsSubdirName)]
       else [])
      ++ (let plainList := exportOriginals.filter (fun p => !p.adjusted)
          if !plainList.isEmpty then
            [ExportEvent.scriptedExport plainList true cfg.tempDirectory,
             ExportEvent.exifBatch ((plainList.filter (fun p => p.hasExifData)).map (fun p =>
               exifDataOf (validateFilename isFile (pathJoin cfg.tempDirectory p.originalFilename)) p)),
             ExportEvent.moveTempTo targetPath]
          else [])
    else [])

/-- The photo phase of `_export_internal` for one node whose `photos`
key is present (ape_exporter.py lines 71-121): create the output
directory (with the Originals subdirectory when some photo is adjusted),
run the direct-access loop, then hand the adjusted photos as
`export_current` and the failed ones as `export_originals` to
`_export_media`. -/
def exportPhotosPhase (cfg : Config) (isFile : String → Bool) (targetPath : String)
    (photos : List PhotoRecord) : List ExportEvent :=
  let mkdirEvent :=
    if photos.any (fun p => p.adjusted) then
      ExportEvent.makeDirs (pathJoin targetPath cfg.originalsSubdirName)
    else ExportEvent.makeDirs targetPath
  let loopResult := directAccessLoop cfg isFile targetPath photos
  let exportCurrent := photos.filter (fun p => p.adjusted)
  mkdirEvent :: loopResult.1 ++ exportMediaEvents cfg isFile exportCurrent targetPath loopResult.2

/-- Embedding of `ApeExporter._export_internal` (ape_exporter.py lines 62-121): walk
children first, then run the photo phase when the `photos` key is
present.  The source recursion is bounded by the tree depth; the
embedding adds fuel, and every property below holds for every fuel
value. -/
def exportInternal : Nat → Config → (String → Bool) → String → AlbumNode → List ExportEvent
  | 0, _, _, _, _ => []
  | fuel + 1, cfg, isFile, targetPath, AlbumNode.mk _ _ name photos children =>
    let tp := pathJoin targetPath name
    (match children with
     | some cs => (cs.map (fun c => exportInternal fuel cfg isFile tp c)).flatten
     | none => [])
    ++ (match photos with
        | some ps => exportPhotosPhase cfg isFile tp ps
        | none => [])

/-- Embedding of `ApeExporter.export_photos` (ape_exporter.py lines 238-242). -/
def exportPhotosRun (fuel : Nat) (cfg : Config) (isFile : String → Bool) (targetPath : String)
    (albumTree : List AlbumNode) : List ExportEvent :=
  (albumTree.map (fun folder => exportInternal fuel cfg isFile targetPath folder)).flatten

/-- The failure raised by `ApeExporter.__init__` (ape_exporter.py lines
41-60).  `noneTypeHasNoRunning` is the `AttributeError` raised by
`exif_tool.running` when the module-level `exif_tool` handle is None. -/
inductive InitError : Type where
  | missingPyExiftool
  | tempDirNotEmpty
  | originalsSubdirUnset
  | noneTypeHasNoRunning
deriving DecidableEq, Repr

/-- The state `ApeExporter.__init__` leaves behind when it succeeds. -/
structure InitState : Type where
  updateExifEffective : Bool
  toolStarted : Bool
deriving DecidableEq, Repr

/-- Embedding of `ApeExporter.__init__` (ape_exporter.py lines 41-60).
`exifToolAvailable` is the truthiness of the module-level `exif_tool`
handle (None when the exiftool import failed), `exifToolRunning` its
`running` attribute, `tempListing` the `os.listdir` of the temporary
directory.  After the three guarded raises the constructor reads
`exif_tool.running` unconditionally, which on a None handle is an
`AttributeError`. -/
def apeExporterInit (exifToolAvailable exifToolRunning updateExif : Bool)
    (tempListing : List String) (originalsSubdirName : String) : Except InitError InitState :=
  if updateExif && !exifToolAvailable then Except.error InitError.missingPyExiftool
  else if !tempListing.isEmpty then Except.error InitError.tempDirNotEmpty
  else if originalsSubdirName = "" then Except.error InitError.originalsSubdirUnset
  else if !exifToolAvailable then Except.error InitError.noneTypeHasNoRunning
  else Except.ok { updateExifEffective := updateExif && exifToolAvailable,
                   toolStarted := !exifToolRunning }

end ApeExporter

namespace ApePhotos

/-- The subtree rooted at a node contains at least one photo somewhere. -/
inductive SubtreeHasPhoto : AlbumNode → Prop where
  | here {n : AlbumNode} : n.photosL ≠ [] → SubtreeHasPhoto n
  | there {n c : AlbumNode} : c ∈ n.childrenL → SubtreeHasPhoto c → SubtreeHasPhoto n

/-- Every node of the subtree has at least one photo or at least one
non-empty descendant (the pruning invariant of the spec). -/
inductive PrunedNode : AlbumNode → Prop where
  | mk {n : AlbumNode} :
      (n.photosL ≠ [] ∨ ∃ c, c ∈ n.childrenL ∧ SubtreeHasPhoto c) →
      (∀ c ∈ n.childrenL, PrunedNode c) → PrunedNode n

/-- Every sibling list of the forest, at every level, is pairwise
non-decreasing by name under the lexicographic string order. -/
inductive SiblingsSorted : List AlbumNode → Prop where
  | mk {l : List AlbumNode} :
      l.Pairwise (fun a b => a.name ≤ b.name) →
      (∀ n ∈ l, SiblingsSorted n.childrenL) → SiblingsSorted l

end ApePhotos

open ApePhotos ApeExporter

/-- A sample album row used by concrete witnesses: album 2 below root 1. -/
def albumRowA : AlbumRow :=
  { id := 2, parentId := some 1, uuid := "au", name := "A", kind := 2 }

/-- A sample photo row linked to album 2, unadjusted, not live, no GPS. -/
def photoRowA : PhotoRow :=
  { albumId := 2, id := 10, directory := "d", filename := "f.jpg", uuid := "pu",
    originalFilename := "f.jpg", hasAdjustments := some 0, videoCpDisplayValue := 0,
    latitude := none, longitude := none, favourite := none, keywordIds := none }

/-- A photo row sitting exactly on the valid GPS boundary: latitude 90,
longitude 80. -/
def gpsBoundaryRow : PhotoRow :=
  { photoRowA with latitude := some 90, longitude := some 80 }

/-- A photo row just past the asymmetric longitude bound: latitude 0,
longitude 80.0001. -/
def gpsInvalidRow : PhotoRow :=
  { photoRowA with latitude := some 0, longitude := some 80.0001 }

namespace ApeExporter

/-- Follows the spec words for C8: a recognized video-container extension
is a filename ending in `.mov` or `.mp4`, case-insensitive. -/
def specVideoContainerExt (s : String) : Bool :=
  ".mov".data.reverse.isPrefixOf (pyLower s).data.reverse
  || ".mp4".data.reverse.isPrefixOf (pyLower s).data.reverse

/-- The exporter configuration used by concrete witnesses. -/
def cfgW : Config :=
  { photosLibraryPath := "Lib", tempDirectory := "T",
    originalsSubdirName := "Originals", updateExif := false }

/-- A live, adjusted photo record, used to exhibit the behaviour of the
scripted-export buckets. -/
def livePhotoAdjusted : PhotoRecord :=
  { id := 11, uuid := "lv", directory := "d", filename := "v.mov",
    originalFilename := "v.mov", adjusted := true, live := true, latitude := none,
    longitude := none, favourite := none, keywords := [], hasExifData := false }

/-- A live, unadjusted photo record. -/
def livePhotoPlain : PhotoRecord :=
  { livePhotoAdjusted with id := 12, uuid := "lp", adjusted := false }

/-- The non-live sample photo record built from `photoRowA`. -/
def photoRecA : PhotoRecord := ApePhotos.createPhotoRecord [] photoRowA

/-- A one-node sample tree holding `photoRecA`. -/
def treeA : List AlbumNode :=
  [AlbumNode.mk (some 2) (some "au") "A" (some [photoRecA]) none]

/-- Metadata-patch record of the first witness file. -/
def exifDataW : ExifData :=
  { latitude := none, longitude := none, keywords := ["holiday"], filename := "a.jpg" }

/-- Metadata-patch record of the second witness file. -/
def exifDataW2 : ExifData :=
  { latitude := none, longitude := none, keywords := ["x"], filename := "b.jpg" }

/-- A metadata-tool oracle answering the unexpected status
`0 image files updated` for every invocation. -/
def toolW : List ExifFlag → Except Unit String :=
  fun _ => Except.ok "0 image files updated"

/-- A metadata-tool oracle answering the success status
`1 image files updated` for every invocation. -/
def toolOk : List ExifFlag → Except Unit String :=
  fun _ => Except.ok "1 image files updated"

end ApeExporter

/-- A pruned node always has a photo somewhere below it. -/
theorem ApePhotos.PrunedNode.subtreeHasPhoto {n : AlbumNode} (h : PrunedNode n) :
    SubtreeHasPhoto n := by
  cases h with
  | mk disj _ =>
    rcases disj with hp | ⟨c, hc, hsub⟩
    · exact SubtreeHasPhoto.here hp
    · exact SubtreeHasPhoto.there hc hsub

/-- C1: the photo-row fetch of `fetch_albums` is claimed to accept the
first query shape that executes without a structural error and to surface
a fatal error only when every shape fails.  The code violates this: the
variable `error` set by a failed earlier query is never cleared when a
later query succeeds, so with the first shape failing (error 7) and the
remaining three succeeding, the saved error is raised even though rows
were fetched.  (With the first shape succeeding the fetch does succeed.) -/
theorem fetchPhotoTemp_raises_despite_second_query_success :
    fetchPhotoTemp [Except.error 7, Except.ok ([] : List PhotoRow), Except.ok [], Except.ok []]
      = FetchOutcome.raised 7
    ∧ fetchPhotoTemp [(Except.ok [] : Except Nat (List PhotoRow)), Except.ok [], Except.ok [],
        Except.ok []] = FetchOutcome.ok [] :=
  ⟨rfl, rfl⟩

/-- C2 counterexample: for the empty library (zero albums, zero photos)
the output of `fetch_albums` is not an empty forest — the synthetic
Shared node is appended unconditionally, with an empty children list. -/
theorem fetchAlbums_empty_library_keeps_shared :
    fetchAlbums 1 [] [] [] = [AlbumNode.mk none none "Shared" none (some [])]
    ∧ fetchAlbums 1 [] [] [] ≠ [] := by
  constructor
  · simp [fetchAlbums, parseTree, sharedAlbumsOf]
  · simp [fetchAlbums]

/-- C2 amended: the synthetic node named Shared is always appended as the
last root sibling of the output forest, its children being the shared-type
(kind 1505) albums; when no shared-type album exists the Shared node is
still present with an empty children list, and for an empty library the
output forest consists of exactly that childless Shared node, without
crashing. -/
theorem fetchAlbums_shared_always_last :
    (∀ (rootId : Int) (albumTemp : List AlbumRow) (keywordsTemp : List KeywordRow)
      (photoTemp : List PhotoRow),
      (fetchAlbums rootId albumTemp keywordsTemp photoTemp).getLast?
        = some (AlbumNode.mk none none "Shared" none (some (sharedAlbumsOf albumTemp photoTemp))))
    ∧ (∀ (rootId : Int) (keywordsTemp : List KeywordRow) (photoTemp : List PhotoRow),
      fetchAlbums rootId [] keywordsTemp photoTemp
        = [AlbumNode.mk none none "Shared" none (some [])]) := by
  constructor
  · intro rootId albumTemp keywordsTemp photoTemp
    exact List.getLast?_concat _
  · intro rootId keywordsTemp photoTemp
    simp [fetchAlbums, parseTree, sharedAlbumsOf]

/-- C3 counterexample: the forest returned by `fetch_albums` can contain
a node with neither photos nor a non-empty descendant — for the empty
library the appended Shared node has no photos and no children, so the
pruning invariant does not hold of the full `fetch_albums` output. -/
theorem fetchAlbums_keeps_empty_shared_node :
    AlbumNode.mk none none "Shared" none (some []) ∈ fetchAlbums 1 [] [] []
    ∧ (AlbumNode.mk none none "Shared" none (some [])).photosL = []
    ∧ (AlbumNode.mk none none "Shared" none (some [])).childrenL = [] := by
  refine ⟨?_, rfl, rfl⟩
  have h : fetchAlbums 1 [] [] [] = [AlbumNode.mk none none "Shared" none (some [])] := by
    simp [fetchAlbums, parseTree, sharedAlbumsOf]
  rw [h]
  exact List.mem_singleton.mpr rfl

/-- C3 amended: every node of the primary forest built by `_parse_tree`
has at least one photo or at least one descendant whose subtree contains
a photo, and this holds recursively at every node; only the synthetic
Shared branch that `fetch_albums` appends afterwards is exempt. -/
theorem parseTree_pruned_invariant :
    ∀ (fuel : Nat) (parentId : Int) (albumTemp : List AlbumRow) (photoTemp : List PhotoRow)
      (keywordsTemp : List KeywordRow),
      ∀ n ∈ parseTree fuel parentId albumTemp photoTemp keywordsTemp, PrunedNode n := by
  intro fuel
  induction fuel with
  | zero => intro parentId albumTemp photoTemp keywordsTemp n hn; simp [parseTree] at hn
  | succ fuel ih =>
    intro parentId albumTemp photoTemp keywordsTemp n hn
    simp only [parseTree] at hn
    rw [List.mem_mergeSort, List.mem_filterMap] at hn
    obtain ⟨a, _, hsome⟩ := hn
    by_cases hpar : a.parentId = some parentId
    · simp only [hpar, if_pos] at hsome
      set photosHere := (photoTemp.filter (fun p => p.albumId = a.id)).map
        (fun p => createPhotoRecord keywordsTemp p) with hphotos
      set childrenHere := parseTree fuel a.id albumTemp photoTemp keywordsTemp with hchildren
      by_cases hcond : (!photosHere.isEmpty || !childrenHere.isEmpty) = true
      · rw [if_pos hcond] at hsome
        cases hsome
        constructor
        · rcases Bool.or_eq_true_iff.mp hcond with hne | hne
          · left
            have hne' : photosHere ≠ [] := by
              intro hcontra
              rw [hcontra] at hne
              simp at hne
            simp only [AlbumNode.photosL, AlbumNode.photos]
            rw [if_neg (by simpa using hne')]
            simpa using hne'
          · right
            have hne' : childrenHere ≠ [] := by
              intro hcontra
              rw [hcontra] at hne
              simp at hne
            obtain ⟨c, hc⟩ := List.exists_mem_of_ne_nil _ hne'
            refine ⟨c, ?_, ?_⟩
            · simp only [AlbumNode.childrenL, AlbumNode.children]
              rw [if_neg (by simpa using hne')]
              simpa using hc
            · exact (ih a.id albumTemp photoTemp keywordsTemp c hc).subtreeHasPhoto
        · intro c hc
          simp only [AlbumNode.childrenL, AlbumNode.children] at hc
          by_cases hemp : childrenHere.isEmpty
          · rw [if_pos hemp] at hc
            simp at hc
          · rw [if_neg hemp] at hc
            simp only [Option.getD_some] at hc
            exact ih a.id albumTemp photoTemp keywordsTemp c hc
      · rw [if_neg hcond] at hsome
        cases hsome
    · simp only [hpar, if_neg, if_false] at hsome
      cases hsome

/-- Witness for the amended C3 invariant at a concrete non-empty tree. -/
theorem parseTree_pruned_invariant_witness :
    PrunedNode (AlbumNode.mk (some 2) (some "au") "A"
      (some [createPhotoRecord [] photoRowA]) none) := by
  apply parseTree_pruned_invariant 2 1 [albumRowA] [photoRowA] []
  have h : parseTree 2 1 [albumRowA] [photoRowA] [] =
      [AlbumNode.mk (some 2) (some "au") "A" (some [createPhotoRecord [] photoRowA]) none] := by
    simp [parseTree, albumRowA, photoRowA]
  rw [h]
  exact List.mem_singleton.mpr rfl

/-- C4: the constructed photo record keeps latitude and longitude exactly
when both are present and latitude lies in [-90, 90] and longitude in
[-180, 80] (the asymmetric upper bound of the source), and otherwise both
are nulled. -/
theorem createPhotoRecord_gps_policy (keywordsMap : List KeywordRow) (photo : PhotoRow) :
    (∀ la lo : ℚ, photo.latitude = some la → photo.longitude = some lo →
      -90 ≤ la → la ≤ 90 → -180 ≤ lo → lo ≤ 80 →
      (createPhotoRecord keywordsMap photo).latitude = some la ∧
      (createPhotoRecord keywordsMap photo).longitude = some lo)
    ∧ ((¬ ∃ la lo : ℚ, photo.latitude = some la ∧ photo.longitude = some lo ∧
        -90 ≤ la ∧ la ≤ 90 ∧ -180 ≤ lo ∧ lo ≤ 80) →
      (createPhotoRecord keywordsMap photo).latitude = none ∧
      (createPhotoRecord keywordsMap photo).longitude = none) := by
  constructor
  · intro la lo hla hlo h1 h2 h3 h4
    have hv : gpsValid (some la) (some lo) = true := by
      simp only [gpsValid, Bool.and_eq_true, decide_eq_true_eq]
      exact ⟨⟨⟨h1, h2⟩, h3⟩, h4⟩
    simp [createPhotoRecord, hla, hlo, hv]
  · intro hno
    have hv : gpsValid photo.latitude photo.longitude = false := by
      cases hla : photo.latitude with
      | none => simp [gpsValid]
      | some la =>
        cases hlo : photo.longitude with
        | none => simp [gpsValid]
        | some lo =>
          by_contra hcontra
          rw [Bool.not_eq_false] at hcontra
          simp only [gpsValid, Bool.and_eq_true, decide_eq_true_eq] at hcontra
          exact hno ⟨la, lo, hla, hlo, hcontra.1.1.1, hcontra.1.1.2, hcontra.1.2, hcontra.2⟩
    simp [createPhotoRecord, hv]

/-- Witness for C4 at the boundary rows: (90, 80) is kept verbatim while
(0, 80.0001) is nulled. -/
theorem createPhotoRecord_gps_policy_witness :
    ((createPhotoRecord [] gpsBoundaryRow).latitude = some 90 ∧
     (createPhotoRecord [] gpsBoundaryRow).longitude = some 80) ∧
    ((createPhotoRecord [] gpsInvalidRow).latitude = none ∧
     (createPhotoRecord [] gpsInvalidRow).longitude = none) := by
  constructor
  · exact (createPhotoRecord_gps_policy [] gpsBoundaryRow).1 90 80 rfl rfl
      (by norm_num) (by norm_num) (by norm_num) (by norm_num)
  · refine (createPhotoRecord_gps_policy [] gpsInvalidRow).2 ?_
    rintro ⟨la, lo, hla, hlo, _, _, _, h80⟩
    have hlo' : lo = 80.0001 := by
      simpa [gpsInvalidRow, photoRowA] using hlo.symm
    rw [hlo'] at h80
    norm_num at h80

/-- C9: at every level of the forest built by `_parse_tree` the sibling
names are non-decreasing under the lexicographic string order, whatever
the row insertion order was. -/
theorem parseTree_siblings_sorted :
    ∀ (fuel : Nat) (parentId : Int) (albumTemp : List AlbumRow) (photoTemp : List PhotoRow)
      (keywordsTemp : List KeywordRow),
      SiblingsSorted (parseTree fuel parentId albumTemp photoTemp keywordsTemp) := by
  intro fuel
  induction fuel with
  | zero =>
    intro parentId albumTemp photoTemp keywordsTemp
    simp only [parseTree]
    exact SiblingsSorted.mk List.Pairwise.nil (by intro n hn; cases hn)
  | succ fuel ih =>
    intro parentId albumTemp photoTemp keywordsTemp
    simp only [parseTree]
    constructor
    · have hsorted := @List.sorted_mergeSort AlbumNode childLe
        (fun a b c hab hbc => by
          simp only [childLe, decide_eq_true_eq] at *
          exact le_trans hab hbc)
        (fun a b => by
          simp only [childLe, Bool.or_eq_true, decide_eq_true_eq]
          exact le_total a.name b.name)
      exact (hsorted _).imp (by
        intro a b hab
        simpa only [childLe, decide_eq_true_eq] using hab)
    · intro n hn
      rw [List.mem_mergeSort, List.mem_filterMap] at hn
      obtain ⟨a, _, hsome⟩ := hn
      by_cases hpar : a.parentId = some parentId
      · simp only [hpar, if_pos] at hsome
        set childrenHere := parseTree fuel a.id albumTemp photoTemp keywordsTemp with hchildren
        by_cases hcond : (!((photoTemp.filter (fun p => p.albumId = a.id)).map
            (fun p => createPhotoRecord keywordsTemp p)).isEmpty || !childrenHere.isEmpty) = true
        · rw [if_pos hcond] at hsome
          cases hsome
          simp only [AlbumNode.childrenL, AlbumNode.children]
          by_cases hemp : childrenHere.isEmpty
          · rw [if_pos hemp]
            exact SiblingsSorted.mk List.Pairwise.nil (by intro m hm; cases hm)
          · rw [if_neg hemp]
            simpa only [Option.getD_some, hchildren] using
              ih a.id albumTemp photoTemp keywordsTemp
        · rw [if_neg hcond] at hsome
          cases hsome
      · simp only [hpar, if_neg, if_false] at hsome
        cases hsome

namespace ApeExporter

/-- Shape of the events emitted by the direct-access loop: a direct copy
of a non-live listed photo, a single-file EXIF patch, or a temp-to-target
move — never a scripted export. -/
theorem directAccessLoop_events_shape (cfg : Config) (isFile : String → Bool)
    (targetPath : String) :
    ∀ (photos : List PhotoRecord) (e : ExportEvent),
      e ∈ (directAccessLoop cfg isFile targetPath photos).1 →
      (∃ p src dst, p ∈ photos ∧ p.live = false ∧ e = ExportEvent.directCopy p src dst)
      ∨ (∃ dl, e = ExportEvent.exifBatch dl)
      ∨ (∃ src dst, e = ExportEvent.moveFile src dst) := by
  intro photos
  induction photos with
  | nil => intro e h; simp [directAccessLoop] at h
  | cons photo rest ih =>
    intro e h
    simp only [directAccessLoop] at h
    by_cases hl : photo.live = true
    · rw [if_pos hl] at h
      rcases ih e h with ⟨p, src, dst, hp, hlive, rfl⟩ | h | h
      · exact Or.inl ⟨p, src, dst, List.mem_cons_of_mem _ hp, hlive, rfl⟩
      · exact Or.inr (Or.inl h)
      · exact Or.inr (Or.inr h)
    · rw [if_neg hl] at h
      have hl' : photo.live = false := by
        cases hlv : photo.live
        · rfl
        · exact absurd hlv hl
      split at h
      · rcases List.mem_cons.mp h with rfl | h
        · exact Or.inl ⟨photo, _, _, List.mem_cons_self _ _, hl', rfl⟩
        · rcases ih e h with ⟨p, src, dst, hp, hlive, rfl⟩ | h | h
          · exact Or.inl ⟨p, src, dst, List.mem_cons_of_mem _ hp, hlive, rfl⟩
          · exact Or.inr (Or.inl h)
          · exact Or.inr (Or.inr h)
      · split at h
        · rcases List.mem_cons.mp h with rfl | h
          · exact Or.inl ⟨photo, _, _, List.mem_cons_self _ _, hl', rfl⟩
          · rcases List.mem_cons.mp h with rfl | h
            · exact Or.inr (Or.inl ⟨_, rfl⟩)
            · rcases List.mem_cons.mp h with rfl | h
              · exact Or.inr (Or.inr ⟨_, _, rfl⟩)
              · rcases ih e h with ⟨p, src, dst, hp, hlive, rfl⟩ | h | h
                · exact Or.inl ⟨p, src, dst, List.mem_cons_of_mem _ hp, hlive, rfl⟩
                · exact Or.inr (Or.inl h)
                · exact Or.inr (Or.inr h)
        · rcases List.mem_cons.mp h with rfl | h
          · exact Or.inl ⟨photo, _, _, List.mem_cons_self _ _, hl', rfl⟩
          · rcases ih e h with ⟨p, src, dst, hp, hlive, rfl⟩ | h | h
            · exact Or.inl ⟨p, src, dst, List.mem_cons_of_mem _ hp, hlive, rfl⟩
            · exact Or.inr (Or.inl h)
            · exact Or.inr (Or.inr h)

/-- A live listed photo always lands in the `failed_direct_access` list
of the loop. -/
theorem directAccessLoop_live_failed (cfg : Config) (isFile : String → Bool)
    (targetPath : String) :
    ∀ (photos : List PhotoRecord) (p : PhotoRecord), p ∈ photos → p.live = true →
      p ∈ (directAccessLoop cfg isFile targetPath photos).2 := by
  intro photos
  induction photos with
  | nil => intro p hp; cases hp
  | cons photo rest ih =>
    intro p hp hlive
    simp only [directAccessLoop]
    rcases List.mem_cons.mp hp with rfl | hp
    · rw [if_pos hlive]
      exact List.mem_cons_self _ _
    · have hrest := ih p hp hlive
      by_cases hl : photo.live = true
      · rw [if_pos hl]
        exact List.mem_cons_of_mem _ hrest
      · rw [if_neg hl]
        split
        · exact List.mem_cons_of_mem _ hrest
        · split
          · exact hrest
          · exact hrest

/-- The function `_export_media` never emits a direct copy. -/
theorem exportMediaEvents_no_directCopy (cfg : Config) (isFile : String → Bool)
    (exportCurrent : List PhotoRecord) (targetPath : String)
    (exportOriginals : List PhotoRecord) (p : PhotoRecord) (src dst : String) :
    ExportEvent.directCopy p src dst
      ∉ exportMediaEvents cfg isFile exportCurrent targetPath exportOriginals := by
  intro h
  simp only [exportMediaEvents, List.mem_append] at h
  rcases h with h | h
  · split at h <;> simp at h
  · split at h
    · rcases List.mem_append.mp h with h | h
      · split at h <;> simp at h
      · split at h <;> simp at h
    · simp at h

/-- The only scripted export invoked without `with using originals` in
`_export_media` is the `export_current` bucket, into the temporary
directory. -/
theorem exportMediaEvents_scripted_current (cfg : Config) (isFile : String → Bool)
    (exportCurrent : List PhotoRecord) (targetPath : String)
    (exportOriginals : List PhotoRecord) (l : List PhotoRecord) (d : String) :
    ExportEvent.scriptedExport l false d
      ∈ exportMediaEvents cfg isFile exportCurrent targetPath exportOriginals →
      l = exportCurrent ∧ d = cfg.tempDirectory := by
  intro h
  simp only [exportMediaEvents, List.mem_append] at h
  rcases h with h | h
  · split at h
    · simp at h
      exact h
    · simp at h
  · split at h
    · rcases List.mem_append.mp h with h | h
      · split at h <;> simp at h
      · split at h <;> simp at h
    · simp at h

/-- Non-emptiness of the `export_current` bucket triggers its scripted
export invocation. -/
theorem exportMediaEvents_current_mem (cfg : Config) (isFile : String → Bool)
    (exportCurrent : List PhotoRecord) (targetPath : String)
    (exportOriginals : List PhotoRecord) (hne : exportCurrent ≠ []) :
    ExportEvent.scriptedExport exportCurrent false cfg.tempDirectory
      ∈ exportMediaEvents cfg isFile exportCurrent targetPath exportOriginals := by
  cases exportCurrent with
  | nil => exact absurd rfl hne
  | cons a t =>
    apply List.mem_append_left
    simp [exportMediaEvents]

/-- Every member of the `export_originals` argument appears in one of the
two `with using originals` scripted invocations of `_export_media`. -/
theorem exportMediaEvents_originals_mem (cfg : Config) (isFile : String → Bool)
    (exportCurrent : List PhotoRecord) (targetPath : String)
    (exportOriginals : List PhotoRecord) (p : PhotoRecord) (hp : p ∈ exportOriginals) :
    ∃ l, ExportEvent.scriptedExport l true cfg.tempDirectory
      ∈ exportMediaEvents cfg isFile exportCurrent targetPath exportOriginals ∧ p ∈ l := by
  have hone : exportOriginals.isEmpty = false :=
    List.isEmpty_eq_false.mpr (List.ne_nil_of_mem hp)
  by_cases ha : p.adjusted = true
  · refine ⟨exportOriginals.filter (fun q => q.adjusted), ?_, ?_⟩
    · have hmem : p ∈ exportOriginals.filter (fun q => q.adjusted) :=
        List.mem_filter.mpr ⟨hp, ha⟩
      have hne : (exportOriginals.filter (fun q => q.adjusted)).isEmpty = false :=
        List.isEmpty_eq_false.mpr (List.ne_nil_of_mem hmem)
      apply List.mem_append_right
      rw [if_pos (by rw [hone]; rfl)]
      apply List.mem_append_left
      rw [if_pos (by rw [hne]; rfl)]
      exact List.mem_cons_self _ _
    · exact List.mem_filter.mpr ⟨hp, ha⟩
  · have ha' : (!p.adjusted) = true := by
      cases hav : p.adjusted
      · rfl
      · exact absurd hav ha
    refine ⟨exportOriginals.filter (fun q => !q.adjusted), ?_, ?_⟩
    · have hmem : p ∈ exportOriginals.filter (fun q => !q.adjusted) :=
        List.mem_filter.mpr ⟨hp, ha'⟩
      have hne : (exportOriginals.filter (fun q => !q.adjusted)).isEmpty = false :=
        List.isEmpty_eq_false.mpr (List.ne_nil_of_mem hmem)
      apply List.mem_append_right
      rw [if_pos (by rw [hone]; rfl)]
      apply List.mem_append_right
      rw [if_pos (by rw [hne]; rfl)]
      exact List.mem_cons_self _ _
    · exact List.mem_filter.mpr ⟨hp, ha'⟩

/-- A direct copy event of the per-node photo phase concerns a non-live
photo of the node. -/
theorem exportPhotosPhase_directCopy_live_false (cfg : Config) (isFile : String → Bool)
    (targetPath : String) (photos : List PhotoRecord) (p : PhotoRecord) (src dst : String)
    (h : ExportEvent.directCopy p src dst ∈ exportPhotosPhase cfg isFile targetPath photos) :
    p.live = false := by
  simp only [exportPhotosPhase] at h
  rcases List.mem_cons.mp h with h | h
  · split at h <;> simp at h
  · rcases List.mem_append.mp h with h | h
    · rcases directAccessLoop_events_shape cfg isFile targetPath photos _ h with
        ⟨q, src', dst', _, hlive, heq⟩ | ⟨dl, heq⟩ | ⟨src', dst', heq⟩
      · obtain ⟨rfl, -, -⟩ := ExportEvent.directCopy.inj heq
        exact hlive
      · cases heq
      · cases heq
    · exact absurd h (exportMediaEvents_no_directCopy _ _ _ _ _ _ _ _)

end ApeExporter

/-- Direct-copy events of the full tree walk concern non-live photos
only, for every fuel value. -/
theorem exportInternal_directCopy_live_false :
    ∀ (fuel : Nat) (cfg : Config) (isFile : String → Bool) (targetPath : String)
      (n : AlbumNode) (p : PhotoRecord) (src dst : String),
      ExportEvent.directCopy p src dst ∈ exportInternal fuel cfg isFile targetPath n →
      p.live = false := by
  intro fuel
  induction fuel with
  | zero => intro cfg isFile targetPath n p src dst h; simp [exportInternal] at h
  | succ fuel ih =>
    intro cfg isFile targetPath n p src dst h
    cases n with
    | mk i u name photos children =>
      cases children with
      | none =>
        cases photos with
        | none => simp [exportInternal] at h
        | some ps =>
          simp only [exportInternal] at h
          rcases List.mem_append.mp h with h | h
          · simp at h
          · exact exportPhotosPhase_directCopy_live_false cfg isFile
              (pathJoin targetPath name) ps p src dst h
      | some cs =>
        simp only [exportInternal] at h
        rcases List.mem_append.mp h with h | h
        · rw [List.mem_flatten] at h
          obtain ⟨evl, hevl, he⟩ := h
          rw [List.mem_map] at hevl
          obtain ⟨c, hc, rfl⟩ := hevl
          exact ih cfg isFile (pathJoin targetPath name) c p src dst he
        · cases photos with
          | none => simp at h
          | some ps =>
            exact exportPhotosPhase_directCopy_live_false cfg isFile
              (pathJoin targetPath name) ps p src dst h

/-- C5 counterexample: a live adjusted photo is a member of the bucket of
the scripted-export invocation made without `with using originals`, so
the claimed exclusion of live-photo components (and of direct-access
failures) from that bucket is false on the code: line 120 of
ape_exporter.py collects every adjusted photo of the node. -/
theorem exportCurrent_bucket_contains_live_photo :
    livePhotoAdjusted.live = true
    ∧ ExportEvent.scriptedExport [livePhotoAdjusted] false "T"
        ∈ exportPhotosPhase cfgW (fun _ => true) "out" [livePhotoAdjusted] := by
  exact ⟨rfl, by decide⟩

/-- C5 amended: the bucket of the scripted export invoked without
`with using originals` is exactly the list of adjusted photos of the
node — including adjusted photos that failed direct access and adjusted
live-photo components — and it is invoked exactly when that list is
non-empty, into the temporary directory. -/
theorem exportCurrent_bucket_eq_adjusted :
    ∀ (cfg : Config) (isFile : String → Bool) (targetPath : String)
      (photos : List PhotoRecord) (l : List PhotoRecord) (d : String),
      (ExportEvent.scriptedExport l false d ∈ exportPhotosPhase cfg isFile targetPath photos →
        l = photos.filter (fun p => p.adjusted) ∧ d = cfg.tempDirectory)
      ∧ (photos.filter (fun p => p.adjusted) ≠ [] →
        ExportEvent.scriptedExport (photos.filter (fun p => p.adjusted)) false
          cfg.tempDirectory ∈ exportPhotosPhase cfg isFile targetPath photos) := by
  intro cfg isFile targetPath photos l d
  constructor
  · intro h
    simp only [exportPhotosPhase] at h
    rcases List.mem_cons.mp h with h | h
    · split at h <;> simp at h
    · rcases List.mem_append.mp h with h | h
      · rcases directAccessLoop_events_shape cfg isFile targetPath photos _ h with
          ⟨q, src', dst', _, _, heq⟩ | ⟨dl, heq⟩ | ⟨src', dst', heq⟩ <;> cases heq
      · exact exportMediaEvents_scripted_current cfg isFile _ targetPath _ l d h
  · intro hne
    simp only [exportPhotosPhase]
    exact List.mem_cons_of_mem _ (List.mem_append_right _
      (exportMediaEvents_current_mem cfg isFile _ targetPath _ hne))

/-- Witness for the amended C5 at a concrete node: the without-originals
bucket of a node holding one live adjusted photo is that photo. -/
theorem exportCurrent_bucket_eq_adjusted_witness :
    ([livePhotoAdjusted] = [livePhotoAdjusted].filter (fun p => p.adjusted)
      ∧ "T" = cfgW.tempDirectory)
    ∧ ExportEvent.scriptedExport ([livePhotoAdjusted].filter (fun p => p.adjusted)) false
        cfgW.tempDirectory ∈ exportPhotosPhase cfgW (fun _ => true) "out" [livePhotoAdjusted] := by
  constructor
  · exact (exportCurrent_bucket_eq_adjusted cfgW (fun _ => true) "out" [livePhotoAdjusted]
      [livePhotoAdjusted] "T").1 (by decide)
  · exact (exportCurrent_bucket_eq_adjusted cfgW (fun _ => true) "out" [livePhotoAdjusted]
      ([livePhotoAdjusted].filter (fun p => p.adjusted)) cfgW.tempDirectory).2 (by decide)

/-- C6: a live photo record is never the subject of a direct copy from
the library storage anywhere in the export walk, and every live photo of
a node is routed to a scripted-export invocation of that node. -/
theorem live_photo_never_direct_copied :
    (∀ (fuel : Nat) (cfg : Config) (isFile : String → Bool) (targetPath : String)
      (tree : List AlbumNode) (p : PhotoRecord) (src dst : String),
      ExportEvent.directCopy p src dst ∈ exportPhotosRun fuel cfg isFile targetPath tree →
        p.live = false)
    ∧ (∀ (cfg : Config) (isFile : String → Bool) (targetPath : String)
      (photos : List PhotoRecord) (p : PhotoRecord), p ∈ photos → p.live = true →
      ∃ l b, ExportEvent.scriptedExport l b cfg.tempDirectory
        ∈ exportPhotosPhase cfg isFile targetPath photos ∧ p ∈ l) := by
  constructor
  · intro fuel cfg isFile targetPath tree p src dst h
    simp only [exportPhotosRun] at h
    rw [List.mem_flatten] at h
    obtain ⟨evl, hevl, he⟩ := h
    rw [List.mem_map] at hevl
    obtain ⟨n, hn, rfl⟩ := hevl
    exact exportInternal_directCopy_live_false fuel cfg isFile targetPath n p src dst he
  · intro cfg isFile targetPath photos p hp hlive
    have hfail := directAccessLoop_live_failed cfg isFile targetPath photos p hp hlive
    obtain ⟨l, hmem, hpl⟩ := exportMediaEvents_originals_mem cfg isFile
      (photos.filter (fun q => q.adjusted)) targetPath
      (directAccessLoop cfg isFile targetPath photos).2 p hfail
    refine ⟨l, true, ?_, hpl⟩
    simp only [exportPhotosPhase]
    exact List.mem_cons_of_mem _ (List.mem_append_right _ hmem)

/-- Witness for C6: in a concrete run the only direct copy concerns the
non-live `photoRecA`, and a node holding one live photo routes it into a
scripted-export bucket. -/
theorem live_photo_never_direct_copied_witness :
    photoRecA.live = false
    ∧ ∃ l b, ExportEvent.scriptedExport l b cfgW.tempDirectory
        ∈ exportPhotosPhase cfgW (fun _ => true) "out" [livePhotoPlain]
        ∧ livePhotoPlain ∈ l := by
  constructor
  · exact live_photo_never_direct_copied.1 1 cfgW (fun _ => true) "out" treeA photoRecA
      "Lib/originals/d/f.jpg" "out/A/f.jpg" (by decide)
  · exact live_photo_never_direct_copied.2 cfgW (fun _ => true) "out" [livePhotoPlain]
      livePhotoPlain (by decide) rfl

/-- C7: a metadata-patch attempt whose status string contains neither
recognized success substring yields exactly one logged soft error for
that file, the file stays unpatched, and the remaining records of the
batch are still processed. -/
theorem runUpdateExif_unexpected_result_soft_error :
    ∀ (tool : List ExifFlag → Except Unit String) (d : ExifData) (rest : List ExifData)
      (r : String),
      reMoviesMatch d.filename = false →
      (exifFlags d).isEmpty = false →
      tool (exifFlags d ++ [ExifFlag.overwriteInPlace, ExifFlag.preserveDate,
        ExifFlag.target d.filename]) = Except.ok r →
      strContains r updatedMsg = false →
      strContains r unchangedMsg = false →
      runUpdateExif true tool (d :: rest)
        = (d.filename, ExifOutcome.softError r) :: runUpdateExif true tool rest := by
  intro tool d rest r h1 h2 h3 h4 h5
  have h2' : exifFlags d ≠ [] := List.isEmpty_eq_false.mp h2
  simp [runUpdateExif, processExifData, h1, h2, h2', h3, h4, h5]

/-- Witness for C7: the tool answers `0 image files updated`, the first
file gets one soft error and the second file is still processed. -/
theorem runUpdateExif_unexpected_result_soft_error_witness :
    runUpdateExif true toolW (exifDataW :: [exifDataW2])
      = ("a.jpg", ExifOutcome.softError "0 image files updated")
        :: runUpdateExif true toolW [exifDataW2] :=
  runUpdateExif_unexpected_result_soft_error toolW exifDataW [exifDataW2]
    "0 image files updated" (by decide) (by decide) rfl (by decide) (by decide)

/-- C8: the claim that the metadata tool is never invoked on a file with
a video-container extension fails on the code: `re_movies.match` anchors
at the start of the string, so the path `/tmp/clip.mov` — which does end
in `.mov` — is not skipped and the tool is invoked on it (outcome
`patched`, not `skippedMovie`). -/
theorem exif_tool_invoked_on_movie_file :
    specVideoContainerExt "/tmp/clip.mov" = true
    ∧ reMoviesMatch "/tmp/clip.mov" = false
    ∧ runUpdateExif true toolOk
        [{ latitude := none, longitude := none, keywords := ["k"],
           filename := "/tmp/clip.mov" }]
        = [("/tmp/clip.mov", ExifOutcome.patched "1 image files updated")] := by
  exact ⟨by decide, by decide, by decide⟩

/-- C10: when the exiftool module handle is None, constructing
`ApeExporter` always raises — for any `update_exif` flag, temp-directory
listing and subdirectory name — and in particular with `update_exif`
false, an empty temporary directory and the subdirectory name set, the
failure is the unconditional `exif_tool.running` dereference. -/
theorem apeExporterInit_errors_without_exiftool :
    ∀ (exifToolRunning updateExif : Bool) (tempListing : List String)
      (originalsSubdirName : String),
      (∃ e, apeExporterInit false exifToolRunning updateExif tempListing originalsSubdirName
        = Except.error e)
      ∧ apeExporterInit false exifToolRunning false [] "Originals"
        = Except.error InitError.noneTypeHasNoRunning := by
  intro r u tmp sub
  constructor
  · cases u with
    | true => exact ⟨InitError.missingPyExiftool, rfl⟩
    | false =>
      cases tmp with
      | cons a t => exact ⟨InitError.tempDirNotEmpty, rfl⟩
      | nil =>
        by_cases hs : sub = ""
        · exact ⟨InitError.originalsSubdirUnset, by simp [apeExporterInit, hs]⟩
        · exact ⟨InitError.noneTypeHasNoRunning, by simp [apeExporterInit, hs]⟩
  · rfl
